import Mathlib

/-!
Verification of the Agon legacy firmware update utility (src/src/main.c).

The C program is embedded shallowly:

* pure helpers (`containsMosHeader`, `validFirmware`, the page-count
  derivation) become Lean functions over `Nat`;
* the hardware-touching body of `update_mos` becomes a function producing
  the list of hardware events it issues (a trace) together with its
  boolean result; the CRC comparison of each attempt is an oracle
  `devOk : Nat → Bool` giving the verification outcome of each attempt,
  as in the spec's simulated-device properties;
* `main` becomes a function from an environment (file present?, stale
  buffer contents, file bytes, user answer, device oracle) to an outcome
  (exit with a code, or hang in the final `while(1);`) plus the flash
  event trace.

The flash geometry constants (`FLASHSTART`, `PAGESIZE`, `FLASHPAGES`,
`FLASHSIZE`, `BUFFER1`) live in `flash.h`, which is not part of `src/`;
they are kept abstract in a `FlashGeom` record.  The CRC-32
implementation (`crc32.h`/`crc32.c`) is likewise absent and is modelled
from the spec.
-/

namespace AgonFlash

/-- Hardware / observable events issued by the firmware updater, in the
order the C code issues them.  `di`/`ei` are the eZ80 interrupt
disable/enable instructions (`ei` is included in the vocabulary so that
"interrupts are re-enabled" is expressible; the source never issues it).
`enableFlashKey` is `enableFlashKeyRegister()`, `setProt v` is the write
`FLASH_PROT = v`, `setFdiv v` is `FLASH_FDIV = v`, `erasePage i` is the
erase of flash page `i` (the `FLASH_PAGE`/`FLASH_PGCTL` sequence plus
busy-wait), `writePage dst src len` is `fastmemcpy(dst, src, len)`,
`lockFlashKey` is `lockFlashKeyRegister()`, and `verify ok` is one
CRC-check of the programmed flash region with result `ok`. -/
inductive Ev : Type where
  | di : Ev
  | ei : Ev
  | enableFlashKey : Ev
  | setProt : Nat → Ev
  | setFdiv : Nat → Ev
  | erasePage : Nat → Ev
  | writePage : Nat → Nat → Nat → Ev
  | lockFlashKey : Ev
  | verify : Bool → Ev
deriving DecidableEq, Repr

/-- Flash geometry constants from `flash.h` (the header is not part of
`src/`, so the geometry is abstract): base address, page size in bytes,
number of pages, total flash size in bytes, and the RAM load address
`BUFFER1`. -/
structure FlashGeom : Type where
  FLASHSTART : Nat
  PAGESIZE : Nat
  FLASHPAGES : Nat
  FLASHSIZE : Nat
  BUFFER1 : Nat
deriving DecidableEq, Repr

/-- The five magic bytes of a valid MOS image
(src/src/main.c line 53: `0xF3, 0xED, 0x7D, 0x5B, 0xC3`). -/
def mos_magicnumbers : List Nat := [0xF3, 0xED, 0x7D, 0x5B, 0xC3]

/-- MOS_MAGICLENGTH (src/src/main.c line 54). -/
def MOS_MAGICLENGTH : Nat := 5

/-- Embedding of `containsMosHeader` (src/src/main.c lines 55-61): the
buffer is a function from byte offset to byte value; the C loop starts
from `match = true` and clears it on any mismatch among the first
`MOS_MAGICLENGTH` bytes. -/
def containsMosHeader (filestart : Nat → Nat) : Bool :=
  (List.range MOS_MAGICLENGTH).foldl
    (fun match_ n => if mos_magicnumbers.getD n 0 ≠ filestart n then false else match_)
    true

/-- Embedding of `validFirmware` (src/src/main.c lines 175-188): starts
from `true`, cleared if the header check fails, cleared if
`filesize > FLASHSIZE`.  `buf` is the content of `BUFFER1` at call time
and `filesize` the value of the global `filesize` at call time. -/
def validFirmware (g : FlashGeom) (buf : Nat → Nat) (filesize : Nat) : Bool :=
  let v := true
  let v := if ¬containsMosHeader buf then false else v
  let v := if filesize > g.FLASHSIZE then false else v
  v

/-- The value written to `FLASH_FDIV` (src/src/main.c line 104:
`FLASH_FDIV = 0x5F;`). -/
def FLASH_FDIV_value : Nat := 0x5F

/-- Modelled from the spec: `setEraseTiming(divisor)` configures "the
erase-timing divisor derived from the controller clock frequency
(ceiling of clock-frequency × minimum-pulse-width)".  The hardware
details are in `flash.h`, which is not under `src/`.  `clockHz` is the
clock in hertz and `pulseNs` the minimum erase pulse width in
nanoseconds, so the product over `10^9` is the dimensionless divisor;
the ceiling is taken over naturals. -/
def eraseDivisorSpec (clockHz pulseNs : Nat) : Nat :=
  (clockHz * pulseNs + (1000000000 - 1)) / 1000000000

/-- Number of pages written, from src/src/main.c lines 120-126:
`pagemax = filesize/PAGESIZE;` incremented by one when
`filesize%PAGESIZE` is non-zero. -/
def pagemax (g : FlashGeom) (filesize : Nat) : Nat :=
  if filesize % g.PAGESIZE ≠ 0 then filesize / g.PAGESIZE + 1
  else filesize / g.PAGESIZE

/-- Bytes written on the last page, from src/src/main.c lines 121-126:
`filesize%PAGESIZE` when that remainder is non-zero, otherwise a full
`PAGESIZE`. -/
def lastpagebytes (g : FlashGeom) (filesize : Nat) : Nat :=
  if filesize % g.PAGESIZE ≠ 0 then filesize % g.PAGESIZE
  else g.PAGESIZE

/-- The erase phase of one attempt (src/src/main.c lines 106-116): every
one of the `FLASHPAGES` pages is erased, in ascending order. -/
def eraseTrace (g : FlashGeom) : List Ev :=
  (List.range g.FLASHPAGES).map Ev.erasePage

/-- The programming phase of one attempt (src/src/main.c lines 129-142):
pages `0 .. pagemax-1` in ascending order; the destination starts at
`FLASHSTART` and the source at `BUFFER1`, both advancing by `PAGESIZE`
per page; the last page writes `lastpagebytes` bytes, every other page a
full `PAGESIZE`. -/
def writeTrace (g : FlashGeom) (filesize : Nat) : List Ev :=
  (List.range (pagemax g filesize)).map (fun counter =>
    Ev.writePage (g.FLASHSTART + counter * g.PAGESIZE)
      (g.BUFFER1 + counter * g.PAGESIZE)
      (if counter = pagemax g filesize - 1 then lastpagebytes g filesize
       else g.PAGESIZE))

/-- One iteration of the retry loop of `update_mos`
(src/src/main.c lines 93-155), as the event sequence it issues:
unlock the flash key register, clear `FLASH_PROT`, unlock again, set
`FLASH_FDIV = 0x5F`, erase every flash page, program all the image's
pages, lock the flash key register, then run the CRC check whose outcome
on attempt `a` is `devOk a`. -/
def attemptTrace (g : FlashGeom) (filesize : Nat) (devOk : Nat → Bool)
    (a : Nat) : List Ev :=
  [Ev.enableFlashKey, Ev.setProt 0, Ev.enableFlashKey,
   Ev.setFdiv FLASH_FDIV_value]
  ++ eraseTrace g ++ writeTrace g filesize
  ++ [Ev.lockFlashKey, Ev.verify (devOk a)]

/-- The retry loop `while((!success) && (attempt < 3))` of `update_mos`
(src/src/main.c lines 92-156), from attempt number `attempt`.  `fuel`
bounds the recursion; since the loop guard requires `attempt < 3`, fuel
`3` from attempt `0` is exact.  Returns the concatenated event trace and
the final value of `success`. -/
def update_mos_from (g : FlashGeom) (filesize : Nat) (devOk : Nat → Bool) :
    Nat → Nat → List Ev × Bool
  | _, 0 => ([], false)
  | attempt, fuel + 1 =>
    if attempt < 3 then
      if devOk attempt then (attemptTrace g filesize devOk attempt, true)
      else
        let r := update_mos_from g filesize devOk (attempt + 1) fuel
        (attemptTrace g filesize devOk attempt ++ r.1, r.2)
    else ([], false)

/-- Embedding of `update_mos` (src/src/main.c lines 77-159): disable
interrupts (`di()`, line 90), then run the retry loop starting at
attempt `0`; the function returns `success`.  No `ei()` instruction
appears anywhere in the source. -/
def update_mos (g : FlashGeom) (filesize : Nat) (devOk : Nat → Bool) :
    List Ev × Bool :=
  let r := update_mos_from g filesize devOk 0 3
  (Ev.di :: r.1, r.2)

/-- EXIT_FILENOTFOUND (src/src/main.c line 30). -/
def EXIT_FILENOTFOUND : Nat := 4

/-- EXIT_INVALIDPARAMETER (src/src/main.c line 31). -/
def EXIT_INVALIDPARAMETER : Nat := 19

/-- Outcome of a run of `main`: either a `return code` or the
unconditional infinite loop `while(1);` awaiting an external reset. -/
inductive Outcome : Type where
  | exits : Nat → Outcome
  | hangs : Outcome
deriving DecidableEq, Repr

/-- Environment of one run of the program: whether `mos_fopen` on the
firmware file succeeds, the content of the RAM at `BUFFER1` before
anything is read (a stale byte function), the bytes of the firmware file
(loaded by `readMemory`, which returns their count), the user's answer
to the `getResponse` prompt, and the per-attempt verification oracle. -/
structure Env : Type where
  fileExists : Bool
  staleBuffer : Nat → Nat
  fileData : List Nat
  userYes : Bool
  devOk : Nat → Bool

/-- Byte function view of the loaded file: byte `i` of `fileData`
(the content of `BUFFER1` after `readMemory`). -/
def loadedBuffer (e : Env) : Nat → Nat :=
  fun i => e.fileData.getD i 0

/-- Embedding of `main` (src/src/main.c lines 229-264), following the
source order exactly:
1. `filesExist()` fails → `return EXIT_FILENOTFOUND` (line 238);
2. `validFirmware()` (line 239) — called *before* `readMemory`, so it
   sees the stale `BUFFER1` contents and the global `filesize`, which
   still holds its initial value `0`; failure → `return
   EXIT_INVALIDPARAMETER`;
3. `filesize = readMemory(...)` (line 246) loads the file into
   `BUFFER1`; `filesize == 0` → print error, `return 0` (line 249);
4. CRC of the source image is computed, the user is prompted; `n` →
   `return 0` (line 255);
5. `update_mos()`: on `true` the program prints and enters `while(1);`
   (line 261), never returning; on `false` it `return 0` (line 263).
Returns the outcome together with the flash event trace of the run. -/
def main_run (g : FlashGeom) (e : Env) : Outcome × List Ev :=
  if ¬e.fileExists then (Outcome.exits EXIT_FILENOTFOUND, [])
  else if ¬validFirmware g e.staleBuffer 0 then
    (Outcome.exits EXIT_INVALIDPARAMETER, [])
  else
    let filesize := e.fileData.length
    if filesize = 0 then (Outcome.exits 0, [])
    else if ¬e.userYes then (Outcome.exits 0, [])
    else
      let r := update_mos g filesize e.devOk
      if r.2 then (Outcome.hangs, r.1) else (Outcome.exits 0, r.1)

/-- Modelled from the spec: the CRC-32 implementation
(`crc32.h`/`crc32.c`) is not under `src/`; the spec requires "the
standard reflected 32-bit checksum (seed `0xFFFFFFFF`, polynomial
`0xEDB88320`, final value XORed with `0xFFFFFFFF`), table-driven".
This is the content of table entry `n` of the standard table: eight
right-shift steps, XORing the reflected polynomial in whenever the low
bit is set.  All values stay below `2^32`, so no masking is needed. -/
def crc32_table_entry (n : Nat) : Nat :=
  (fun c => if c % 2 = 1 then (c / 2) ^^^ 0xEDB88320 else c / 2)^[8] n

/-- Modelled from the spec: `crc32_initialize()` resets the accumulator
to the fixed seed `0xFFFFFFFF`. -/
def crc32_initialize : Nat := 0xFFFFFFFF

/-- Modelled from the spec: folding one byte into the accumulator, the
table-driven step `crc = table[(crc ^ byte) & 0xFF] ^ (crc >> 8)` of the
standard reflected CRC-32. -/
def crc32_update1 (crc b : Nat) : Nat :=
  crc32_table_entry ((crc ^^^ b) % 256) ^^^ (crc / 256)

/-- Modelled from the spec: `crc32(buf, size)` streams a byte range into
the accumulator. -/
def crc32_update (crc : Nat) (bytes : List Nat) : Nat :=
  bytes.foldl crc32_update1 crc

/-- Modelled from the spec: `crc32_finalize()` XORs the accumulator with
`0xFFFFFFFF` and returns the 32-bit result. -/
def crc32_finalize (crc : Nat) : Nat :=
  crc ^^^ 0xFFFFFFFF

/-- The checksum of a whole byte sequence, as `calculateCRC32`
(src/src/main.c lines 195-209) computes it: initialize, stream the
buffer, finalize. -/
def crc32_of (bytes : List Nat) : Nat :=
  crc32_finalize (crc32_update crc32_initialize bytes)

/-- Recognizer for `verify` events. -/
def isVerify : Ev → Bool
  | Ev.verify _ => true
  | _ => false

/-- Recognizer for `erasePage` events. -/
def isErase : Ev → Bool
  | Ev.erasePage _ => true
  | _ => false

/-- Recognizer for `writePage` events. -/
def isWrite : Ev → Bool
  | Ev.writePage _ _ _ => true
  | _ => false

/-- Number of CRC verification passes in a trace: one per
erase-program-verify cycle. -/
def verifyCount (t : List Ev) : Nat :=
  t.countP isVerify

/-- Number of page erases in a trace. -/
def eraseCount (t : List Ev) : Nat :=
  t.countP isErase

/-- Number of page writes in a trace. -/
def writeCount (t : List Ev) : Nat :=
  t.countP isWrite

/-- Length field of a `writePage` event, `0` for anything else. -/
def evLen : Ev → Nat
  | Ev.writePage _ _ len => len
  | _ => 0

/-- Total number of bytes written to flash by a trace. -/
def bytesWritten (t : List Ev) : Nat :=
  (t.map evLen).sum

/-- Interrupt-mask state machine: `true` means interrupts enabled;
`di` disables, `ei` enables, every other event leaves the state. -/
def intStep (s : Bool) : Ev → Bool
  | Ev.di => false
  | Ev.ei => true
  | _ => s

/-- Interrupt-mask state after running a trace from state `s`. -/
def intState (s : Bool) (t : List Ev) : Bool :=
  t.foldl intStep s

/-- Flash-key-register lock state machine as driven by the explicit
calls in the source: `true` means locked; `enableFlashKeyRegister`
unlocks, `lockFlashKeyRegister` locks, every other event leaves the
state. -/
def lockStep (s : Bool) : Ev → Bool
  | Ev.enableFlashKey => false
  | Ev.lockFlashKey => true
  | _ => s

/-- Lock state after running a trace from state `s`. -/
def lockState (s : Bool) (t : List Ev) : Bool :=
  t.foldl lockStep s

/-- Per-event obligation for the lock discipline: every CRC verification
runs with the flash key register locked, and every page write happens
while it is unlocked. -/
def lockObl (s : Bool) : Ev → Bool
  | Ev.verify _ => s
  | Ev.writePage _ _ _ => !s
  | _ => true

/-- The lock discipline holds along a trace started in lock state `s`:
at each event the obligation `lockObl` holds for the current state. In
particular, between the last page write (state unlocked) and any later
verification (state locked) a `lockFlashKey` event must intervene. -/
def lockInv (s : Bool) : List Ev → Bool
  | [] => true
  | e :: r => lockObl s e && lockInv (lockStep s e) r

/-- A small concrete flash geometry used to instantiate the universally
quantified theorems: 8 pages of 4 bytes (32-byte flash) with the image
loaded at address 100. -/
def g0 : FlashGeom :=
  { FLASHSTART := 0, PAGESIZE := 4, FLASHPAGES := 8, FLASHSIZE := 32,
    BUFFER1 := 100 }

/-- A stale buffer whose first five bytes happen to equal the MOS magic
sequence (e.g. left over from a previous load). -/
def staleValidBuffer : Nat → Nat :=
  fun i => mos_magicnumbers.getD i 0

/-- Concrete run: the firmware file exists but is larger than the whole
flash (33 bytes against `g0`'s 32-byte capacity) and does not start with
the MOS magic bytes; the stale RAM at `BUFFER1` still holds a valid
header; the user confirms and the device verifies on the first
attempt. -/
def envOversize : Env :=
  { fileExists := true, staleBuffer := staleValidBuffer,
    fileData := List.replicate 33 0, userYes := true,
    devOk := fun _ => true }

/-- Concrete run: the firmware file exists and the stale buffer holds a
valid header, but reading yields zero bytes. -/
def envRead0 : Env :=
  { fileExists := true, staleBuffer := staleValidBuffer,
    fileData := [], userYes := true, devOk := fun _ => true }

/-- Concrete run: the firmware file is missing. -/
def envNoFile : Env :=
  { fileExists := false, staleBuffer := staleValidBuffer,
    fileData := [], userYes := true, devOk := fun _ => true }

/-- Concrete run: a well-formed five-byte image is present, the user
confirms, and verification succeeds on the first attempt. -/
def envSuccess : Env :=
  { fileExists := true, staleBuffer := staleValidBuffer,
    fileData := [0xF3, 0xED, 0x7D, 0x5B, 0xC3], userYes := true,
    devOk := fun _ => true }

/-! ## Helper lemmas on traces -/

theorem verifyCount_append (t u : List Ev) :
    verifyCount (t ++ u) = verifyCount t + verifyCount u := by
  simp [verifyCount]

theorem eraseCount_append (t u : List Ev) :
    eraseCount (t ++ u) = eraseCount t + eraseCount u := by
  simp [eraseCount]

theorem writeCount_append (t u : List Ev) :
    writeCount (t ++ u) = writeCount t + writeCount u := by
  simp [writeCount]

theorem verifyCount_eraseTrace (g : FlashGeom) :
    verifyCount (eraseTrace g) = 0 := by
  simp only [verifyCount, eraseTrace, List.countP_map]
  exact List.countP_eq_zero.mpr (fun a _ => by simp [Function.comp, isVerify])

theorem verifyCount_writeTrace (g : FlashGeom) (fs : Nat) :
    verifyCount (writeTrace g fs) = 0 := by
  simp only [verifyCount, writeTrace, List.countP_map]
  exact List.countP_eq_zero.mpr (fun a _ => by simp [Function.comp, isVerify])

theorem eraseCount_eraseTrace (g : FlashGeom) :
    eraseCount (eraseTrace g) = g.FLASHPAGES := by
  simp only [eraseCount, eraseTrace, List.countP_map]
  rw [show (List.range g.FLASHPAGES).countP (isErase ∘ Ev.erasePage)
        = (List.range g.FLASHPAGES).length from
      List.countP_eq_length.mpr (fun a _ => by simp [Function.comp, isErase])]
  simp

theorem eraseCount_writeTrace (g : FlashGeom) (fs : Nat) :
    eraseCount (writeTrace g fs) = 0 := by
  simp only [eraseCount, writeTrace, List.countP_map]
  exact List.countP_eq_zero.mpr (fun a _ => by simp [Function.comp, isErase])

theorem writeCount_eraseTrace (g : FlashGeom) :
    writeCount (eraseTrace g) = 0 := by
  simp only [writeCount, eraseTrace, List.countP_map]
  exact List.countP_eq_zero.mpr (fun a _ => by simp [Function.comp, isWrite])

theorem writeCount_writeTrace (g : FlashGeom) (fs : Nat) :
    writeCount (writeTrace g fs) = pagemax g fs := by
  simp only [writeCount, writeTrace, List.countP_map]
  rw [show (List.range (pagemax g fs)).countP
        (isWrite ∘ fun counter =>
          Ev.writePage (g.FLASHSTART + counter * g.PAGESIZE)
            (g.BUFFER1 + counter * g.PAGESIZE)
            (if counter = pagemax g fs - 1 then lastpagebytes g fs
             else g.PAGESIZE))
        = (List.range (pagemax g fs)).length from
      List.countP_eq_length.mpr (fun a _ => by simp [Function.comp, isWrite])]
  simp

theorem verifyCount_attemptTrace (g : FlashGeom) (fs : Nat)
    (d : Nat → Bool) (a : Nat) :
    verifyCount (attemptTrace g fs d a) = 1 := by
  simp only [attemptTrace, verifyCount_append, verifyCount_eraseTrace,
    verifyCount_writeTrace]
  simp [verifyCount, List.countP_cons, isVerify]

theorem eraseCount_attemptTrace (g : FlashGeom) (fs : Nat)
    (d : Nat → Bool) (a : Nat) :
    eraseCount (attemptTrace g fs d a) = g.FLASHPAGES := by
  simp only [attemptTrace, eraseCount_append, eraseCount_eraseTrace,
    eraseCount_writeTrace]
  simp [eraseCount, List.countP_cons, isErase]

theorem writeCount_attemptTrace (g : FlashGeom) (fs : Nat)
    (d : Nat → Bool) (a : Nat) :
    writeCount (attemptTrace g fs d a) = pagemax g fs := by
  simp only [attemptTrace, writeCount_append, writeCount_eraseTrace,
    writeCount_writeTrace]
  simp [writeCount, List.countP_cons, isWrite]

theorem ei_not_mem_attemptTrace (g : FlashGeom) (fs : Nat)
    (d : Nat → Bool) (a : Nat) :
    Ev.ei ∉ attemptTrace g fs d a := by
  simp [attemptTrace, eraseTrace, writeTrace]

theorem ei_not_mem_update_mos_from (g : FlashGeom) (fs : Nat)
    (d : Nat → Bool) : ∀ (fuel a : Nat),
    Ev.ei ∉ (update_mos_from g fs d a fuel).1 := by
  intro fuel
  induction fuel with
  | zero => intro a; simp [update_mos_from]
  | succ n ih =>
    intro a
    by_cases ha : a < 3
    · by_cases hd : d a = true
      · simp [update_mos_from, ha, hd, ei_not_mem_attemptTrace]
      · simp only [update_mos_from, if_pos ha, Bool.not_eq_true] at *
        simp [hd, List.mem_append, ei_not_mem_attemptTrace, ih (a + 1)]
    · simp [update_mos_from, ha]

theorem intState_of_not_ei (t : List Ev) (h : Ev.ei ∉ t) :
    intState false t = false := by
  induction t with
  | nil => rfl
  | cons e r ih =>
    have he : e ≠ Ev.ei := fun hc => h (hc ▸ List.mem_cons_self e r)
    have hr : Ev.ei ∉ r := fun hc => h (List.mem_cons_of_mem e hc)
    have hstep : intStep false e = false := by
      cases e <;> first | rfl | exact absurd rfl he
    simpa [intState, hstep] using ih hr

theorem lockState_append (s : Bool) (t u : List Ev) :
    lockState s (t ++ u) = lockState (lockState s t) u :=
  List.foldl_append lockStep s t u

theorem lockInv_append (s : Bool) (t u : List Ev) :
    lockInv s (t ++ u) = (lockInv s t && lockInv (lockState s t) u) := by
  induction t generalizing s with
  | nil => simp [lockInv, lockState]
  | cons e r ih =>
    simp [lockInv, lockState, List.foldl_cons, ih, Bool.and_assoc]

theorem lockState_map (s : Bool) (l : List Nat) (f : Nat → Ev)
    (hstep : ∀ c, lockStep s (f c) = s) :
    lockState s (l.map f) = s := by
  induction l with
  | nil => rfl
  | cons c r ih => simp [lockState, List.foldl_cons, hstep c] at ih ⊢; exact ih

theorem lockInv_map (s : Bool) (l : List Nat) (f : Nat → Ev)
    (hstep : ∀ c, lockStep s (f c) = s)
    (hobl : ∀ c, lockObl s (f c) = true) :
    lockInv s (l.map f) = true := by
  induction l with
  | nil => rfl
  | cons c r ih => simp [lockInv, hstep c, hobl c, ih]

theorem lockState_eraseTrace (s : Bool) (g : FlashGeom) :
    lockState s (eraseTrace g) = s :=
  lockState_map s _ _ (fun _ => by cases s <;> rfl)

theorem lockInv_eraseTrace (s : Bool) (g : FlashGeom) :
    lockInv s (eraseTrace g) = true :=
  lockInv_map s _ _ (fun _ => by cases s <;> rfl) (fun _ => rfl)

theorem lockState_writeTrace (s : Bool) (g : FlashGeom) (fs : Nat) :
    lockState s (writeTrace g fs) = s :=
  lockState_map s _ _ (fun _ => by cases s <;> rfl)

theorem lockInv_writeTrace (g : FlashGeom) (fs : Nat) :
    lockInv false (writeTrace g fs) = true :=
  lockInv_map false _ _ (fun _ => rfl) (fun _ => rfl)

theorem lockState_attemptTrace (g : FlashGeom) (fs : Nat)
    (d : Nat → Bool) (a : Nat) :
    lockState true (attemptTrace g fs d a) = true := by
  simp only [attemptTrace, lockState_append]
  rw [show lockState true
        [Ev.enableFlashKey, Ev.setProt 0, Ev.enableFlashKey,
         Ev.setFdiv FLASH_FDIV_value] = false from rfl,
    lockState_eraseTrace, lockState_writeTrace]
  rfl

theorem lockInv_attemptTrace (g : FlashGeom) (fs : Nat)
    (d : Nat → Bool) (a : Nat) :
    lockInv true (attemptTrace g fs d a) = true := by
  simp only [attemptTrace, lockInv_append, lockState_append]
  rw [show lockState true
        [Ev.enableFlashKey, Ev.setProt 0, Ev.enableFlashKey,
         Ev.setFdiv FLASH_FDIV_value] = false from rfl,
    lockState_eraseTrace, lockState_writeTrace,
    lockInv_eraseTrace, lockInv_writeTrace]
  rfl

theorem lock_update_mos_from (g : FlashGeom) (fs : Nat) (d : Nat → Bool) :
    ∀ (fuel a : Nat),
    lockInv true (update_mos_from g fs d a fuel).1 = true
    ∧ lockState true (update_mos_from g fs d a fuel).1 = true := by
  intro fuel
  induction fuel with
  | zero => intro a; exact ⟨rfl, rfl⟩
  | succ n ih =>
    intro a
    by_cases ha : a < 3
    · by_cases hd : d a = true
      · simp only [update_mos_from, if_pos ha, hd, if_pos]
        exact ⟨lockInv_attemptTrace g fs d a, lockState_attemptTrace g fs d a⟩
      · simp only [Bool.not_eq_true] at hd
        simp only [update_mos_from, if_pos ha, hd, Bool.false_eq_true,
          if_neg, ite_false]
        rw [lockInv_append, lockState_append, lockInv_attemptTrace,
          lockState_attemptTrace]
        simpa using ih (a + 1)
    · simp only [update_mos_from, if_neg ha]
      exact ⟨rfl, rfl⟩

theorem sum_map_range_const (m P : Nat) (f : Nat → Nat)
    (h : ∀ c, c < m → f c = P) :
    ((List.range m).map f).sum = m * P := by
  induction m with
  | zero => simp
  | succ k ih =>
    rw [List.range_succ, List.map_append, List.sum_append,
      ih (fun c hc => h c (Nat.lt_succ_of_lt hc))]
    simp [h k (Nat.lt_succ_self k), Nat.succ_mul]

theorem pagemax_pos (g : FlashGeom) (fs : Nat) (hP : 0 < g.PAGESIZE)
    (hfs : 0 < fs) : 0 < pagemax g fs := by
  unfold pagemax
  by_cases hr : fs % g.PAGESIZE = 0
  · simp only [hr, ne_eq, not_true_eq_false, if_false, if_neg]
    exact Nat.div_pos
      (Nat.le_of_dvd hfs (Nat.dvd_of_mod_eq_zero hr)) hP
  · simp [hr]

theorem pagemax_eq_ceil (g : FlashGeom) (fs : Nat) (hP : 0 < g.PAGESIZE) :
    pagemax g fs = (fs + g.PAGESIZE - 1) / g.PAGESIZE := by
  have hq := Nat.div_add_mod fs g.PAGESIZE
  have hrlt : fs % g.PAGESIZE < g.PAGESIZE := Nat.mod_lt fs hP
  by_cases hr : fs % g.PAGESIZE = 0
  · have h1 : fs + g.PAGESIZE - 1
        = g.PAGESIZE * (fs / g.PAGESIZE) + (g.PAGESIZE - 1) := by omega
    rw [pagemax, if_neg (fun h => h hr), h1, Nat.mul_add_div hP,
      Nat.div_eq_of_lt
        (show g.PAGESIZE - 1 < g.PAGESIZE from by omega),
      Nat.add_zero]
  · have h2 : g.PAGESIZE * (fs / g.PAGESIZE + 1)
        = g.PAGESIZE * (fs / g.PAGESIZE) + g.PAGESIZE :=
      Nat.mul_succ g.PAGESIZE (fs / g.PAGESIZE)
    have h1 : fs + g.PAGESIZE - 1
        = g.PAGESIZE * (fs / g.PAGESIZE + 1) + (fs % g.PAGESIZE - 1) := by
      omega
    rw [pagemax, if_pos hr, h1, Nat.mul_add_div hP,
      Nat.div_eq_of_lt
        (show fs % g.PAGESIZE - 1 < g.PAGESIZE from by omega),
      Nat.add_zero]

theorem bytesWritten_writeTrace (g : FlashGeom) (fs : Nat)
    (hP : 0 < g.PAGESIZE) (hfs : 0 < fs) :
    bytesWritten (writeTrace g fs) = fs := by
  have hq := Nat.div_add_mod fs g.PAGESIZE
  have hn : 0 < pagemax g fs := pagemax_pos g fs hP hfs
  obtain ⟨m, hm⟩ : ∃ m, pagemax g fs = m + 1 :=
    ⟨pagemax g fs - 1, by omega⟩
  have hcomp : bytesWritten (writeTrace g fs)
      = ((List.range (pagemax g fs)).map
          (fun c => if c = pagemax g fs - 1 then lastpagebytes g fs
                    else g.PAGESIZE)).sum := by
    unfold bytesWritten writeTrace
    rw [List.map_map]
    rfl
  rw [hcomp, hm]
  rw [List.range_succ, List.map_append, List.sum_append,
    sum_map_range_const m g.PAGESIZE _ (fun c hc => if_neg (by omega))]
  have hfm : (if m = m + 1 - 1 then lastpagebytes g fs else g.PAGESIZE)
      = lastpagebytes g fs := if_pos (by omega)
  simp only [List.map_cons, List.map_nil, List.sum_cons, List.sum_nil, hfm]
  have hmulc : m * g.PAGESIZE = g.PAGESIZE * m := Nat.mul_comm m g.PAGESIZE
  by_cases hr : fs % g.PAGESIZE = 0
  · have hlp : lastpagebytes g fs = g.PAGESIZE := by
      rw [lastpagebytes, if_neg (fun h => h hr)]
    have hpm : pagemax g fs = fs / g.PAGESIZE := by
      rw [pagemax, if_neg (fun h => h hr)]
    have hdiv : fs / g.PAGESIZE = m + 1 := by omega
    have hPm : g.PAGESIZE * (m + 1) = fs := by
      rw [← hdiv]
      omega
    rw [Nat.mul_succ] at hPm
    rw [hlp]
    omega
  · have hlp : lastpagebytes g fs = fs % g.PAGESIZE := by
      rw [lastpagebytes, if_pos hr]
    have hpm : pagemax g fs = fs / g.PAGESIZE + 1 := by
      rw [pagemax, if_pos hr]
    have hdiv : fs / g.PAGESIZE = m := by omega
    have h3 : g.PAGESIZE * m = g.PAGESIZE * (fs / g.PAGESIZE) := by
      rw [hdiv]
    rw [hlp]
    omega

theorem verifyCount_cons (e : Ev) (t : List Ev) :
    verifyCount (e :: t) = verifyCount t + (if isVerify e then 1 else 0) := by
  simp [verifyCount, List.countP_cons]

theorem eraseCount_cons (e : Ev) (t : List Ev) :
    eraseCount (e :: t) = eraseCount t + (if isErase e then 1 else 0) := by
  simp [eraseCount, List.countP_cons]

theorem writeCount_cons (e : Ev) (t : List Ev) :
    writeCount (e :: t) = writeCount t + (if isWrite e then 1 else 0) := by
  simp [writeCount, List.countP_cons]

/-! ## Claim theorems -/

/-- C1: the claim says the Image Validator performs its two checks on
the *loaded* image before any flash erase or write is invoked, rejecting
a wrong signature and any image larger than the flash.  The code is
wrong: `main` calls `validFirmware()` (line 239) *before*
`readMemory()` (line 246) fills `BUFFER1` and the global `filesize`
(still `0`), so the size check `filesize > FLASHSIZE` can never fire and
the header check inspects stale memory.  Concretely: in `envOversize`
the file is bigger than the whole flash and lacks the MOS signature,
yet the run erases all pages and writes more pages than the flash has,
and even ends in the success path. -/
theorem validator_runs_before_image_load :
    g0.FLASHSIZE < envOversize.fileData.length
    ∧ containsMosHeader (loadedBuffer envOversize) = false
    ∧ (main_run g0 envOversize).1 = Outcome.hangs
    ∧ eraseCount (main_run g0 envOversize).2 = g0.FLASHPAGES
    ∧ g0.FLASHPAGES < writeCount (main_run g0 envOversize).2 := by
  decide

/-- C2 counterexample: the claim says every fail-fast outcome — in
particular a `ReadError` (zero bytes read) — returns a *non-zero* exit
status.  In the run `envRead0` the file opens, the (stale) header check
passes, `readMemory` returns `0`, and `main` prints an error but
executes `return 0` (src/src/main.c line 249): the exit status is
zero. -/
theorem read_error_exits_zero :
    (main_run g0 envRead0).1 = Outcome.exits 0
    ∧ (main_run g0 envRead0).2 = [] := by
  decide

/-- C2 amended: runs that fail fast cause no flash mutation (empty
hardware trace); `ImageNotFound` and `InvalidImage` return the non-zero
statuses 4 and 19, but a zero-byte `ReadError` run returns status 0. -/
theorem failfast_paths_no_flash_mutation (g : FlashGeom) (e : Env) :
    (e.fileExists = false →
      main_run g e = (Outcome.exits EXIT_FILENOTFOUND, []))
    ∧ (e.fileExists = true → validFirmware g e.staleBuffer 0 = false →
      main_run g e = (Outcome.exits EXIT_INVALIDPARAMETER, []))
    ∧ (e.fileExists = true → validFirmware g e.staleBuffer 0 = true →
      e.fileData = [] → main_run g e = (Outcome.exits 0, []))
    ∧ EXIT_FILENOTFOUND ≠ 0 ∧ EXIT_INVALIDPARAMETER ≠ 0 := by
  refine ⟨?_, ?_, ?_, by decide, by decide⟩
  · intro h
    simp [main_run, h]
  · intro h1 h2
    simp [main_run, h1, h2]
  · intro h1 h2 h3
    simp [main_run, h1, h2, h3]

/-- C2 witness: the amended theorem applied to the missing-file run and
to the zero-byte-read run. -/
theorem failfast_paths_no_flash_mutation_witness :
    main_run g0 envNoFile = (Outcome.exits EXIT_FILENOTFOUND, [])
    ∧ main_run g0 envRead0 = (Outcome.exits 0, []) :=
  ⟨(failfast_paths_no_flash_mutation g0 envNoFile).1 rfl,
   (failfast_paths_no_flash_mutation g0 envRead0).2.2.1 rfl (by decide) rfl⟩

/-- C3 counterexample: the claim says interrupts are re-enabled when the
flash operation terminates, on Success as well as on Failed.  The
source contains a `di()` (line 90) but no `ei()` at all, so the
interrupt-mask state at termination is still `disabled` (`false`), for
an exhausted-retries run and for a first-attempt-success run alike. -/
theorem interrupts_never_reenabled :
    ¬ intState true (update_mos g0 5 (fun _ => false)).1 = true
    ∧ ¬ intState true (update_mos g0 5 (fun _ => true)).1 = true := by
  decide

/-- C3 amended: interrupts are disabled by the very first event of the
flash operation (`di`) and are never re-enabled — no `ei` occurs in any
run, so the interrupt-mask state is `disabled` from before the first
erase through after the final lock, across every attempt, and still at
termination for both outcomes. -/
theorem interrupts_disabled_throughout (g : FlashGeom) (fs : Nat)
    (d : Nat → Bool) :
    (update_mos g fs d).1.head? = some Ev.di
    ∧ Ev.ei ∉ (update_mos g fs d).1
    ∧ intState true (update_mos g fs d).1 = false := by
  refine ⟨rfl, ?_, ?_⟩
  · simp only [update_mos, List.mem_cons]
    rintro (h | h)
    · exact Ev.noConfusion h
    · exact ei_not_mem_update_mos_from g fs d 3 0 h
  · show intState false (update_mos_from g fs d 0 3).1 = false
    exact intState_of_not_ei _ (ei_not_mem_update_mos_from g fs d 3 0)

/-- C3 witness: the amended theorem instantiated on the 32-byte
geometry with a 5-byte image and an always-failing device. -/
theorem interrupts_disabled_throughout_witness :
    (update_mos g0 5 (fun _ => false)).1.head? = some Ev.di
    ∧ Ev.ei ∉ (update_mos g0 5 (fun _ => false)).1
    ∧ intState true (update_mos g0 5 (fun _ => false)).1 = false :=
  interrupts_disabled_throughout g0 5 (fun _ => false)

/-- C4: at most 3 full erase-program-verify cycles ever run; when the
device first verifies on attempt `k` (`k ∈ {1,2,3}`, i.e. `d (k-1)`
holds and `d j` fails for all `j < k-1`), exactly `k` cycles run, each
one a full cycle: `k` verifications, `k * FLASHPAGES` page erases (the
whole region each time) and `k * pagemax` page writes (the whole image
each time) — never a single-page retry. -/
theorem retry_cycles_bounded_and_exact :
    (∀ (g : FlashGeom) (fs : Nat) (d : Nat → Bool),
      verifyCount (update_mos g fs d).1 ≤ 3)
    ∧ (∀ (g : FlashGeom) (fs : Nat) (d : Nat → Bool) (k : Nat),
      1 ≤ k → k ≤ 3 → d (k - 1) = true →
      (∀ j, j < k - 1 → d j = false) →
      verifyCount (update_mos g fs d).1 = k
      ∧ eraseCount (update_mos g fs d).1 = k * g.FLASHPAGES
      ∧ writeCount (update_mos g fs d).1 = k * pagemax g fs) := by
  constructor
  · intro g fs d
    cases h0 : d 0 <;> cases h1 : d 1 <;> cases h2 : d 2 <;>
      simp [update_mos, update_mos_from, h0, h1, h2, verifyCount_cons,
        verifyCount_append, verifyCount_attemptTrace, isVerify]
  · intro g fs d k hk1 hk3 hk hj
    interval_cases k
    · have h0 : d 0 = true := hk
      refine ⟨?_, ?_, ?_⟩ <;>
        simp [update_mos, update_mos_from, h0, verifyCount_cons,
          eraseCount_cons, writeCount_cons, verifyCount_attemptTrace,
          eraseCount_attemptTrace, writeCount_attemptTrace, isVerify,
          isErase, isWrite]
    · have h0 : d 0 = false := hj 0 (by omega)
      have h1 : d 1 = true := hk
      refine ⟨?_, ?_, ?_⟩ <;>
        simp [update_mos, update_mos_from, h0, h1, verifyCount_cons,
          eraseCount_cons, writeCount_cons, verifyCount_append,
          eraseCount_append, writeCount_append, verifyCount_attemptTrace,
          eraseCount_attemptTrace, writeCount_attemptTrace, isVerify,
          isErase, isWrite] <;> omega
    · have h0 : d 0 = false := hj 0 (by omega)
      have h1 : d 1 = false := hj 1 (by omega)
      have h2 : d 2 = true := hk
      refine ⟨?_, ?_, ?_⟩ <;>
        simp [update_mos, update_mos_from, h0, h1, h2, verifyCount_cons,
          eraseCount_cons, writeCount_cons, verifyCount_append,
          eraseCount_append, writeCount_append, verifyCount_attemptTrace,
          eraseCount_attemptTrace, writeCount_attemptTrace, isVerify,
          isErase, isWrite] <;> omega

/-- C4 witness: on a device that first verifies on attempt 2, exactly 2
cycles run, with 2 full-region erasures and 2 full-image writes. -/
theorem retry_cycles_bounded_and_exact_witness :
    verifyCount (update_mos g0 5 (fun a => a == 1)).1 ≤ 3
    ∧ (verifyCount (update_mos g0 5 (fun a => a == 1)).1 = 2
      ∧ eraseCount (update_mos g0 5 (fun a => a == 1)).1 = 2 * g0.FLASHPAGES
      ∧ writeCount (update_mos g0 5 (fun a => a == 1)).1
          = 2 * pagemax g0 5) :=
  ⟨retry_cycles_bounded_and_exact.1 g0 5 (fun a => a == 1),
   retry_cycles_bounded_and_exact.2 g0 5 (fun a => a == 1) 2 (by decide)
     (by decide) (by decide) (by decide)⟩

/-- C5: for `0 < imageSize ≤ capacity` (and a positive page size), the
derived page count is `ceil(imageSize/pageSize)`, the last-page length
is `imageSize mod pageSize` (or a full page when the remainder is 0),
page `c` of the programming phase writes to `FLASHSTART + c*PAGESIZE`
from `BUFFER1 + c*PAGESIZE` with a full page except the final page
(ascending order), and the total bytes written equal `imageSize`. -/
theorem programming_schedule (g : FlashGeom) (fs : Nat)
    (hP : 0 < g.PAGESIZE) (hfs : 0 < fs)
    (hcap : fs ≤ g.FLASHPAGES * g.PAGESIZE) :
    pagemax g fs = (fs + g.PAGESIZE - 1) / g.PAGESIZE
    ∧ lastpagebytes g fs
        = (if fs % g.PAGESIZE = 0 then g.PAGESIZE else fs % g.PAGESIZE)
    ∧ (∀ c, c < pagemax g fs →
        (writeTrace g fs)[c]? = some (Ev.writePage
          (g.FLASHSTART + c * g.PAGESIZE) (g.BUFFER1 + c * g.PAGESIZE)
          (if c = pagemax g fs - 1 then lastpagebytes g fs
           else g.PAGESIZE)))
    ∧ bytesWritten (writeTrace g fs) = fs := by
  refine ⟨pagemax_eq_ceil g fs hP, ?_, ?_,
    bytesWritten_writeTrace g fs hP hfs⟩
  · by_cases hr : fs % g.PAGESIZE = 0 <;> simp [lastpagebytes, hr]
  · intro c hc
    simp [writeTrace, List.getElem?_map, List.getElem?_range, hc]

/-- C5 witness: the schedule theorem applied to the 32-byte geometry
`g0` and a 5-byte image; in particular the bytes written total 5. -/
theorem programming_schedule_witness :
    0 < g0.PAGESIZE ∧ 0 < 5 ∧ 5 ≤ g0.FLASHPAGES * g0.PAGESIZE
    ∧ bytesWritten (writeTrace g0 5) = 5 :=
  ⟨by decide, by decide, by decide,
   (programming_schedule g0 5 (by decide) (by decide) (by decide)).2.2.2⟩

set_option maxRecDepth 20000 in
/-- C6: the Checksum Engine (modelled from the spec, since
`crc32.c` is not under `src/`: standard reflected CRC-32, seed
`0xFFFFFFFF`, polynomial `0xEDB88320`, final XOR `0xFFFFFFFF`,
table-driven) produces the reference value `0xCBF43926` on the
nine ASCII bytes of "123456789". -/
theorem crc32_check_value :
    crc32_of [0x31, 0x32, 0x33, 0x34, 0x35, 0x36, 0x37, 0x38, 0x39]
      = 0xCBF43926 := by
  decide

/-- C7 counterexample: the claim states the written divisor `0x5F`
(95) equals the ceiling of clock frequency times minimum erase pulse
width *with the stated parameters 18 MHz and 5.1 µs*; but
`ceil(18e6 Hz * 5100 ns) = ceil(91.8) = 92 ≠ 95`. -/
theorem erase_divisor_mismatch_at_18mhz :
    eraseDivisorSpec 18000000 5100 = 92
    ∧ eraseDivisorSpec 18000000 5100 ≠ FLASH_FDIV_value := by
  decide

/-- C7 amended: the value written to `FLASH_FDIV` is `0x5F` = 95, which
equals the ceiling of clock frequency × minimum erase pulse width for
the controller's actual 18.432 MHz clock (the source comment's "18Mhz"
is that figure rounded): `ceil(18432000 Hz * 5100 ns) = ceil(94.0032)
= 95`. -/
theorem erase_divisor_matches_actual_clock :
    FLASH_FDIV_value = 95
    ∧ eraseDivisorSpec 18432000 5100 = FLASH_FDIV_value := by
  decide

/-- C8: `containsMosHeader` returns true exactly when the first five
bytes of the buffer are `0xF3 0xED 0x7D 0x5B 0xC3`, and its result
depends on those five bytes only: buffers agreeing on offsets
`0..4` get the same answer. -/
theorem mos_header_characterization :
    (∀ f : Nat → Nat, containsMosHeader f = true ↔
      (f 0 = 0xF3 ∧ f 1 = 0xED ∧ f 2 = 0x7D ∧ f 3 = 0x5B ∧ f 4 = 0xC3))
    ∧ (∀ f h : Nat → Nat, (∀ i, i < MOS_MAGICLENGTH → f i = h i) →
      containsMosHeader f = containsMosHeader h) := by
  constructor
  · intro f
    rw [containsMosHeader,
      show List.range MOS_MAGICLENGTH = [0, 1, 2, 3, 4] from rfl]
    simp only [List.foldl_cons, List.foldl_nil, mos_magicnumbers,
      List.getD_cons_zero, List.getD_cons_succ]
    by_cases h0 : f 0 = 0xF3 <;> by_cases h1 : f 1 = 0xED <;>
      by_cases h2 : f 2 = 0x7D <;> by_cases h3 : f 3 = 0x5B <;>
      by_cases h4 : f 4 = 0xC3 <;>
      simp [h0, h1, h2, h3, h4, eq_comm]
  · intro f h hfh
    rw [containsMosHeader, containsMosHeader,
      show List.range MOS_MAGICLENGTH = [0, 1, 2, 3, 4] from rfl]
    simp only [List.foldl_cons, List.foldl_nil]
    rw [hfh 0 (by decide), hfh 1 (by decide), hfh 2 (by decide),
      hfh 3 (by decide), hfh 4 (by decide)]

/-- C8 witness: the characterization applied to a buffer starting with
the magic sequence, and the five-byte dependence applied to two buffers
agreeing on the first five offsets. -/
theorem mos_header_characterization_witness :
    containsMosHeader staleValidBuffer = true
    ∧ containsMosHeader staleValidBuffer
        = containsMosHeader (fun i => if i < 5 then staleValidBuffer i
            else 99) :=
  ⟨(mos_header_characterization.1 staleValidBuffer).mpr (by decide),
   mos_header_characterization.2 staleValidBuffer _ (by decide)⟩

/-- C9: along every run of `update_mos`, every page write happens with
the flash key register unlocked and every CRC verification happens with
it locked — so `lockFlashKeyRegister` is called after the last page
write of each attempt and before that attempt's verification — and the
final lock state when `update_mos` returns is locked, on success and on
exhausted retries alike. -/
theorem flash_key_lock_discipline (g : FlashGeom) (fs : Nat)
    (d : Nat → Bool) :
    lockInv true (update_mos g fs d).1 = true
    ∧ lockState true (update_mos g fs d).1 = true := by
  have h := lock_update_mos_from g fs d 3 0
  constructor
  · show lockInv true (Ev.di :: (update_mos_from g fs d 0 3).1) = true
    simp [lockInv, lockObl, lockStep, h.1]
  · show lockState true (Ev.di :: (update_mos_from g fs d 0 3).1) = true
    exact h.2

/-- C10: whenever `update_mos` reports success, `main` prints the
completion messages and enters the unconditional `while(1);` loop — the
run hangs awaiting external reset, and `main`'s `return 0` is never
reached on the success path. -/
theorem success_path_never_returns (g : FlashGeom) (e : Env)
    (h1 : e.fileExists = true)
    (h2 : validFirmware g e.staleBuffer 0 = true)
    (h3 : e.fileData.length ≠ 0) (h4 : e.userYes = true)
    (h5 : (update_mos g e.fileData.length e.devOk).2 = true) :
    (main_run g e).1 = Outcome.hangs := by
  simp [main_run, h1, h2, h3, h4, h5]

/-- C10 witness: a five-byte valid image flashed on a first-attempt
success device makes the run hang. -/
theorem success_path_never_returns_witness :
    (update_mos g0 envSuccess.fileData.length envSuccess.devOk).2 = true
    ∧ (main_run g0 envSuccess).1 = Outcome.hangs :=
  ⟨by decide,
   success_path_never_returns g0 envSuccess (by decide) (by decide)
     (by decide) (by decide) (by decide)⟩

end AgonFlash
